import Mathlib

/-!
# Mini-Chatbot client (`src/App.jsx`): text formatter and conversation handlers

A shallow embedding of the pure text pipeline of the `Message` component
(`formatBoldText`, `formatText`) and of the two state transitions of `App`
(`handleSubmit` and the `ai-response` listener).

JavaScript strings are modelled by Lean strings (sequences of code points); every
character the program inspects (`*`, newline, white space) lies in the Basic
Multilingual Plane, so working on code points instead of UTF-16 units does not
change any split or trim boundary of a well-formed string.
-/

namespace MiniChatbot

/-! ## JavaScript string primitives used by the component -/

/-- ECMAScript `LineTerminator`: LF, CR, LS, PS. The regular-expression atom `.`
(without the `s` flag) matches every character except these. -/
def isLineTerminator (c : Char) : Bool :=
  c.val = 0x000A || c.val = 0x000D || c.val = 0x2028 || c.val = 0x2029

/-- ECMAScript `WhiteSpace`: TAB, VT, FF, ZWNBSP and the Unicode `Zs` category. -/
def isWhiteSpace (c : Char) : Bool :=
  c.val = 0x0009 || c.val = 0x000B || c.val = 0x000C || c.val = 0xFEFF ||
  c.val = 0x0020 || c.val = 0x00A0 || c.val = 0x1680 ||
  (0x2000 ≤ c.val && c.val ≤ 0x200A) ||
  c.val = 0x202F || c.val = 0x205F || c.val = 0x3000

/-- Characters removed by `String.prototype.trim`: white space and line terminators. -/
def isTrimChar (c : Char) : Bool :=
  isWhiteSpace c || isLineTerminator c

/-- The method `String.prototype.trim` on a character list. -/
def trimChars (s : List Char) : List Char :=
  ((s.dropWhile isTrimChar).reverse.dropWhile isTrimChar).reverse

/-- The call `s.trim()`. -/
def trim (s : String) : String :=
  ⟨trimChars s.data⟩

/-- The call `s.startsWith(p)` on character lists. -/
def startsWithChars (p s : List Char) : Bool :=
  s.take p.length == p

/-- The call `s.endsWith(p)` on character lists. -/
def endsWithChars (p s : List Char) : Bool :=
  s.reverse.take p.length == p.reverse

/-- The call `s.slice(2, -2)`: from index 2 up to (not including) index `length - 2`; empty
when the end does not lie after the start. -/
def slice2 (s : List Char) : List Char :=
  (s.take (s.length - 2)).drop 2

/-- The call `s.split('\n')` on a character list: the pieces between newlines, empty pieces
kept, so the empty string gives one empty piece. -/
def splitNewline : List Char → List (List Char)
  | [] => [[]]
  | c :: cs =>
    if c = '\n' then [] :: splitNewline cs
    else
      match splitNewline cs with
      | [] => [[c]]
      | l :: ls => (c :: l) :: ls

/-! ## The regular expression `/(\*\*.*?\*\*)/g` -/

/-- The part of the pattern after the opening `**`: the lazy `.*?` followed by the
closing `**`. Tried at the current position first with no character consumed, then
with one more character that is not a line terminator. Returns the matched text and
the input left after it. -/
def matchLazyClose : List Char → Option (List Char × List Char)
  | [] => none
  | c :: cs =>
    if startsWithChars ['*', '*'] (c :: cs) then some (['*', '*'], cs.drop 1)
    else if isLineTerminator c then none
    else
      match matchLazyClose cs with
      | none => none
      | some (m, rest) => some (c :: m, rest)

/-- One anchored attempt of `\*\*.*?\*\*` at the start of the input: the matched text
(the capture group) and the input left after it. -/
def matchBoldAt (s : List Char) : Option (List Char × List Char) :=
  if startsWithChars ['*', '*'] s then
    match matchLazyClose (s.drop 2) with
    | none => none
    | some (m, rest) => some ('*' :: '*' :: m, rest)
  else none

/-- The loop of `RegExp.prototype[Symbol.split]`: `cur` is the text since the end of
the last match (the substring from `p` to `q`), `s` the input from position `q`. A
match at `q` pushes `cur` and the capture group and continues after the match; no
match moves `q` one character on; at the end of the input the last piece is pushed.
The fuel bounds the number of loop turns; `splitBold` gives one more than the length
of the input, and each turn consumes at least one character. -/
def splitBoldLoop : Nat → List Char → List Char → List (List Char)
  | 0, _, cur => [cur]
  | fuel + 1, s, cur =>
    match matchBoldAt s, s with
    | some (m, rest), _ => cur :: m :: splitBoldLoop fuel rest []
    | none, [] => [cur]
    | none, c :: cs => splitBoldLoop fuel cs (cur ++ [c])

/-- The call `text.split(/(\*\*.*?\*\*)/g)`: the pieces between matches alternate with the
matched texts (the capture group is spliced into the result). -/
def splitBold (s : List Char) : List (List Char) :=
  splitBoldLoop (s.length + 1) s []

/-! ## Display blocks -/

/-- What `formatBoldText` returns for one part: the part itself (a plain string
child) or a `<strong className="bold-text">` element with the given text. -/
inductive Span where
  | plainText (text : String)
  | emphasis (text : String)
  deriving DecidableEq, Repr

/-- What `formatText` returns for one line: a `<p>` or a `<li className="message-bullet">`
element with the spans of `formatBoldText` as children. React keys and class names
are presentation attributes and are not part of the model. -/
inductive Block where
  | paragraph (spans : List Span)
  | bulletItem (spans : List Span)
  deriving DecidableEq, Repr

/-- The callback of `parts.map` in `formatBoldText`. -/
def formatPart (part : List Char) : Span :=
  if startsWithChars ['*', '*'] part && endsWithChars ['*', '*'] part then
    .emphasis ⟨slice2 part⟩
  else .plainText ⟨part⟩

/-- The function `formatBoldText(text)` (App.jsx lines 34-42): split, then map every part. -/
def formatBoldText (text : String) : List Span :=
  (splitBold text.data).map formatPart

/-- The callback of `text.split('\n').map` in `formatText`: `none` stands for the
`null` returned for a blank line. -/
def formatLine (paragraph : String) : Option Block :=
  if trim paragraph = "" then none
  else if startsWithChars ['*'] (trim paragraph).data &&
      !startsWithChars ['*', '*'] (trim paragraph).data then
    some (.bulletItem (formatBoldText (trim ⟨(trim paragraph).data.drop 1⟩)))
  else some (.paragraph (formatBoldText paragraph))

/-- The call `text.split('\n')`. -/
def splitLines (text : String) : List String :=
  (splitNewline text.data).map String.mk

/-- The function `formatText(text)` (App.jsx lines 45-65): map every line, then `.filter(Boolean)`
drops the `null`s. -/
def formatText (text : String) : List Block :=
  ((splitLines text).map formatLine).filterMap id

/-- The children of a block. -/
def Block.spans : Block → List Span
  | .paragraph spans => spans
  | .bulletItem spans => spans

/-- Whether a trimmed line is a bullet: it starts with `*` but not with `**`. -/
def isBulletLine (line : String) : Bool :=
  startsWithChars ['*'] (trim line).data && !startsWithChars ['*', '*'] (trim line).data

/-- The block the specification assigns to a line that is not blank: a bullet item
built from the trimmed line with its leading `*` removed and the remainder trimmed,
or else a paragraph. -/
def lineBlock (line : String) : Block :=
  if isBulletLine line then .bulletItem (formatBoldText (trim ⟨(trim line).data.drop 1⟩))
  else .paragraph (formatBoldText line)

/-- The specification's reading of the formatter: keep the lines that are not empty
after trimming, in order, and give each its block. -/
def formatTextSpec (text : String) : List Block :=
  ((splitLines text).filter (fun line => decide (trim line ≠ ""))).map lineBlock

/-! ## Values that arrive on the socket -/

/-- A JavaScript value as the `ai-response` listener can receive it: what the
transport decodes from the wire (JSON data), or `undefined` when the event carries
no argument. A number is represented by the text `Number::toString` gives for it,
which is the only way this program observes a number. An object lists its own
properties, each key once. -/
inductive JSValue where
  | undefined
  | null
  | boolean (b : Bool)
  | number (repr : String)
  | string (s : String)
  | array (items : List JSValue)
  | object (fields : List (String × JSValue))

/-- An exception thrown by the JavaScript code. -/
inductive JSError where
  | typeError (msg : String)
  deriving DecidableEq, Repr

/-- The `typeof` operator. -/
def typeOf : JSValue → String
  | .undefined => "undefined"
  | .null => "object"
  | .boolean _ => "boolean"
  | .number _ => "number"
  | .string _ => "string"
  | .array _ => "object"
  | .object _ => "object"

/-- Own-property lookup in an object's property list. -/
def lookupField (key : String) : List (String × JSValue) → Option JSValue
  | [] => none
  | (k, v) :: rest => if k = key then some v else lookupField key rest

/-- Whether the property list has an own property named `key`. -/
def hasField (key : String) : List (String × JSValue) → Bool
  | [] => false
  | (k, _) :: rest => k = key || hasField key rest

/-- The property access `value.response`. Reading a property of `null` or `undefined`
throws a `TypeError`; a primitive, an array, or an object without the property gives
`undefined` (neither `Array.prototype`, `Object.prototype` nor the wrapper prototypes
define `response`). -/
def getResponse : JSValue → Except JSError JSValue
  | .undefined => .error (.typeError "Cannot read properties of undefined (reading 'response')")
  | .null => .error (.typeError "Cannot read properties of null (reading 'response')")
  | .object fields =>
    match lookupField "response" fields with
    | some v => .ok v
    | none => .ok .undefined
  | _ => .ok .undefined

mutual
/-- The call `String(value)`, the abstract operation `ToString`. An array joins the strings of
its elements with commas (`Array.prototype.toString` calls `join`). A plain object
gives `[object Object]` through `Object.prototype.toString`, unless it has an own
`toString` property: decoded from the wire that property is never callable, and
`OrdinaryToPrimitive` then ends in a `TypeError`. -/
def jsString : JSValue → Except JSError String
  | .undefined => .ok "undefined"
  | .null => .ok "null"
  | .boolean b => .ok (if b then "true" else "false")
  | .number repr => .ok repr
  | .string s => .ok s
  | .array items => jsJoin items
  | .object fields =>
    if hasField "toString" fields then
      .error (.typeError "Cannot convert object to primitive value")
    else .ok "[object Object]"
/-- The method `Array.prototype.join` with the default separator: the strings of the elements,
left to right, with a comma between neighbours; `undefined` and `null` elements
contribute the empty string. -/
def jsJoin : List JSValue → Except JSError String
  | [] => .ok ""
  | v :: rest =>
    let first : Except JSError String :=
      match v with
      | .undefined => .ok ""
      | .null => .ok ""
      | w => jsString w
    match rest with
    | [] => first
    | _ :: _ =>
      match first with
      | .error e => .error e
      | .ok a =>
        match jsJoin rest with
        | .error e => .error e
        | .ok b => .ok (a ++ "," ++ b)
end

/-! ## Conversation state and the two handlers of `App` -/

/-- One entry of `conversations`. -/
structure Message where
  id : Nat
  text : String
  sender : String
  timestamp : String
  deriving DecidableEq, Repr

/-- The React state of `App` that the handlers read and write: the input box text
`message`, the log `conversations` and the flag `isTyping`. -/
structure AppState where
  message : String
  conversations : List Message
  isTyping : Bool
  deriving DecidableEq, Repr

/-- The two clock readings a handler makes: `Date.now()` and
`formatTime(new Date())`, the locale-formatted time of day. -/
structure Clock where
  now : Nat
  timeText : String
  deriving DecidableEq, Repr

/-- The socket instance returned by `io(url)`. -/
structure Socket where
  url : String
  deriving DecidableEq, Repr

/-- The instance the mount effect creates: `io("https://mini-chatbot-backend-x6x6.onrender.com")`. -/
def socketInstance : Socket :=
  { url := "https://mini-chatbot-backend-x6x6.onrender.com" }

/-- One call `socket.emit(event, payload)`. -/
structure Emit where
  event : String
  payload : String
  deriving DecidableEq, Repr

/-- What a `handleSubmit` call that returns normally leaves behind: the next state
and the events emitted on the socket, in order. -/
structure Outcome where
  state : AppState
  emitted : List Emit
  deriving DecidableEq, Repr

/-- The listener registered with `socketInstance.on('ai-response', ...)`
(App.jsx lines 121-131). -/
def onAiResponse (st : AppState) (response : JSValue) (clk : Clock) :
    Except JSError AppState :=
  match (if typeOf response = "object" then getResponse response else .ok response) with
  | .error e => .error e
  | .ok responseText =>
    match jsString responseText with
    | .error e => .error e
    | .ok text =>
      let botMessage : Message :=
        { id := clk.now, text := text, sender := "bot", timestamp := clk.timeText }
      .ok { st with conversations := st.conversations ++ [botMessage], isTyping := false }

/-- The function `handleSubmit(e)` (App.jsx lines 155-171); `e.preventDefault()` acts on
the DOM event only and is not part of the model. The state cell `socket` is `null`
(`none`) until the mount effect has stored the instance; `socket.emit` on `null`
throws a `TypeError`; an error result says only that the call threw, not what React
does with the update queued before it. -/
def handleSubmit (socket : Option Socket) (st : AppState) (clk : Clock) :
    Except JSError Outcome :=
  if trim st.message = "" then .ok { state := st, emitted := [] }
  else
    let newMessage : Message :=
      { id := clk.now, text := st.message, sender := "user", timestamp := clk.timeText }
    match socket with
    | none => .error (.typeError "Cannot read properties of null (reading 'emit')")
    | some _ =>
      .ok { state := { message := "", conversations := st.conversations ++ [newMessage],
                       isTyping := true },
            emitted := [{ event := "ai-message", payload := st.message }] }

/-- The state after the `ai-response` listener has run on a payload. Every setter call
of the listener stands after the last expression that can throw, so a listener that
throws leaves the state as it was. -/
def afterAiResponse (st : AppState) (response : JSValue) (clk : Clock) : AppState :=
  match onAiResponse st response clk with
  | .ok st' => st'
  | .error _ => st

/-- One thing that happens to the mounted, connected component: the user submits the
form with `text` in the input box, or the socket delivers an `ai-response` event. -/
inductive Event where
  | submit (text : String) (clk : Clock)
  | aiResponse (payload : JSValue) (clk : Clock)

/-- The state after one event, with the socket instance `sock` in place. -/
def step (sock : Socket) (st : AppState) : Event → AppState
  | .submit text clk =>
    match handleSubmit (some sock) { st with message := text } clk with
    | .ok out => out.state
    | .error _ => st
  | .aiResponse payload clk => afterAiResponse st payload clk

/-- The state after a sequence of events, handled one after the other. -/
def run (sock : Socket) (st : AppState) (events : List Event) : AppState :=
  events.foldl (step sock) st

/-- The messages the specification expects a sequence of events to add: one per
submit whose text is not blank and one per delivery. -/
def expectedCount : List Event → Nat
  | [] => 0
  | .submit text _ :: rest => (if trim text = "" then 0 else 1) + expectedCount rest
  | .aiResponse _ _ :: rest => 1 + expectedCount rest

/-- The payloads of the wire protocol: a plain string, or an object whose `response`
property is a string. -/
def isProtocolPayload : JSValue → Bool
  | .string _ => true
  | .object fields =>
    match lookupField "response" fields with
    | some (.string _) => true
    | _ => false
  | _ => false

/-- Whether every delivery in a sequence of events carries a protocol payload. -/
def deliversProtocolPayloads : List Event → Bool
  | [] => true
  | .submit _ _ :: rest => deliversProtocolPayloads rest
  | .aiResponse payload _ :: rest => isProtocolPayload payload && deliversProtocolPayloads rest

/-- Payload shapes of the listener that are neither a string nor an object: the
primitives `undefined`, booleans and numbers. -/
def isOtherPrimitive : JSValue → Bool
  | .undefined => true
  | .boolean _ => true
  | .number _ => true
  | _ => false

/-- Payload shapes without a `response` property: arrays, and objects that have no
own property of that name. -/
def lacksResponse : JSValue → Bool
  | .array _ => true
  | .object fields => !hasField "response" fields
  | _ => false

/-- The log `after` is the log `before` with exactly one message added at the end,
from `sender` and with text `text`. -/
def AppendsOne (before after : List Message) (sender text : String) : Prop :=
  ∃ m : Message, after = before ++ [m] ∧ m.sender = sender ∧ m.text = text

/-! ## The split loop never runs out of fuel -/

theorem matchLazyClose_rest_length (s m rest : List Char)
    (h : matchLazyClose s = some (m, rest)) : rest.length < s.length := by
  induction s generalizing m rest with
  | nil => simp [matchLazyClose] at h
  | cons c cs ih =>
    unfold matchLazyClose at h
    split at h
    · simp only [Option.some.injEq, Prod.mk.injEq] at h
      rw [← h.2]
      simp only [List.length_drop, List.length_cons]
      omega
    · split at h
      · simp at h
      · split at h
        · simp at h
        · rename_i m1 rest1 heq
          simp only [Option.some.injEq, Prod.mk.injEq] at h
          have := ih m1 rest1 heq
          rw [← h.2]
          simp only [List.length_cons]
          omega

theorem matchBoldAt_rest_length (s m rest : List Char)
    (h : matchBoldAt s = some (m, rest)) : rest.length < s.length := by
  unfold matchBoldAt at h
  split at h
  · split at h
    · simp at h
    · rename_i m1 rest1 heq
      simp only [Option.some.injEq, Prod.mk.injEq] at h
      have := matchLazyClose_rest_length _ m1 rest1 heq
      rw [← h.2]
      simp only [List.length_drop] at this
      omega
  · simp at h

/-- Any two fuel values above the length of the input give the same split: the loop
ends by reaching the end of the input, not by exhausting its fuel. -/
theorem splitBoldLoop_fuel (f1 f2 : Nat) (s cur : List Char)
    (h1 : s.length < f1) (h2 : s.length < f2) :
    splitBoldLoop f1 s cur = splitBoldLoop f2 s cur := by
  induction f1 generalizing f2 s cur with
  | zero => omega
  | succ n ih =>
    cases f2 with
    | zero => omega
    | succ k =>
      unfold splitBoldLoop
      split
      · rename_i m rest heq
        have := matchBoldAt_rest_length _ m rest heq
        rw [ih k rest [] (by omega) (by omega)]
      · rfl
      · rename_i c cs heq
        simp only [List.length_cons] at h1 h2
        exact ih k cs (cur ++ [c]) (by omega) (by omega)

/-- With fuel to spare the loop computes `splitBold`. -/
theorem splitBoldLoop_eq_splitBold (fuel : Nat) (s : List Char) (h : s.length < fuel) :
    splitBoldLoop fuel s [] = splitBold s :=
  splitBoldLoop_fuel fuel (s.length + 1) s [] h (Nat.lt_succ_self _)

/-! ## Blocks of `formatText` -/

theorem formatLine_eq (line : String) :
    formatLine line = if trim line = "" then none else some (lineBlock line) := by
  unfold formatLine lineBlock isBulletLine
  by_cases h : trim line = ""
  · simp [h]
  · simp only [h, if_false]
    split <;> rfl

theorem filterMap_formatLine (lines : List String) :
    (lines.map formatLine).filterMap id =
      (lines.filter (fun line => decide (trim line ≠ ""))).map lineBlock := by
  induction lines with
  | nil => rfl
  | cons l ls ih =>
    rw [List.map_cons, List.filterMap_cons, formatLine_eq]
    by_cases h : trim l = ""
    · simp [h, ih]
    · simp [h, ih]

theorem splitBoldLoop_length_odd (fuel : Nat) (s cur : List Char) :
    (splitBoldLoop fuel s cur).length % 2 = 1 := by
  induction fuel generalizing s cur with
  | zero => rfl
  | succ n ih =>
    unfold splitBoldLoop
    split
    · rename_i m rest heq
      have := ih rest []
      simp only [List.length_cons]
      omega
    · rfl
    · rename_i c cs heq
      exact ih cs (cur ++ [c])

theorem formatBoldText_length_odd (text : String) :
    (formatBoldText text).length % 2 = 1 := by
  unfold formatBoldText splitBold
  rw [List.length_map]
  exact splitBoldLoop_length_odd _ _ _

theorem lineBlock_spans_length_odd (line : String) :
    (lineBlock line).spans.length % 2 = 1 := by
  unfold lineBlock
  split
  · exact formatBoldText_length_odd _
  · exact formatBoldText_length_odd _

/-- C9: `formatText` returns exactly one block per line that is not empty after
trimming, in line order, a bullet item (leading `*` removed, remainder trimmed) when
the trimmed line starts with `*` but not `**` and a paragraph otherwise; the two
bullet lines give two bullet items with texts `item one` and `item two`, and the
empty and the blank text give no block. -/
theorem formatText_one_block_per_line (text : String) :
    formatText text = formatTextSpec text ∧
    (formatText text).length =
      ((splitLines text).filter (fun line => decide (trim line ≠ ""))).length ∧
    formatText "* item one\n* item two" =
      [.bulletItem [.plainText "item one"], .bulletItem [.plainText "item two"]] ∧
    formatText "" = [] ∧
    formatText "   \n  " = [] := by
  have h : formatText text = formatTextSpec text := filterMap_formatLine (splitLines text)
  refine ⟨h, ?_, by decide, by decide, by decide⟩
  rw [h, formatTextSpec, List.length_map]

/-- C2 (code at the failing input): for the line `**`, which has no closing pair, the
split finds no match and returns the line as its only part, but `formatBoldText`
still turns that part into an emphasis span with empty text, so the two delimiter
characters are not rendered; the same happens to `***`. -/
theorem formatText_lone_marker_is_emphasis :
    splitBold "**".data = ["**".data] ∧
    formatBoldText "**" = [.emphasis ""] ∧
    formatText "**" = [.paragraph [.emphasis ""]] ∧
    formatText "***" = [.paragraph [.emphasis ""]] := by
  decide

/-- C3 (counterexample): the paragraph of `**bold**` contains an empty plain-text
span, and is not the one-span paragraph the specification names. -/
theorem formatText_bold_has_empty_plainText :
    (∃ b ∈ formatText "**bold**", Span.plainText "" ∈ b.spans) ∧
    formatText "**bold**" ≠ [.paragraph [.emphasis "bold"]] := by
  refine ⟨⟨.paragraph [.plainText "", .emphasis "bold", .plainText ""], ?_, ?_⟩, ?_⟩
  · decide
  · decide
  · decide

/-- C3 (amended): the empty segments of the split are kept as empty plain-text spans,
so every block has an odd number of spans (the pieces between the matches, empty or
not, alternate with the matched segments). `**bold**` gives one paragraph with spans empty text, emphasis `bold`, empty text;
`Hi **there**` gives one paragraph with spans `Hi `, emphasis `there`, empty text; and
dropping the empty plain-text spans from these leaves the span lists the
specification names. -/
theorem formatText_keeps_empty_segments :
    (∀ (text : String) (b : Block), b ∈ formatText text → b.spans.length % 2 = 1) ∧
    formatText "**bold**" =
      [.paragraph [.plainText "", .emphasis "bold", .plainText ""]] ∧
    formatText "Hi **there**" =
      [.paragraph [.plainText "Hi ", .emphasis "there", .plainText ""]] ∧
    (formatBoldText "**bold**").filter (fun sp => decide (sp ≠ .plainText "")) =
      [.emphasis "bold"] ∧
    (formatBoldText "Hi **there**").filter (fun sp => decide (sp ≠ .plainText "")) =
      [.plainText "Hi ", .emphasis "there"] := by
  refine ⟨?_, by decide, by decide, by decide, by decide⟩
  intro text b hb
  rw [formatText, filterMap_formatLine (splitLines text), List.mem_map] at hb
  obtain ⟨line, _, rfl⟩ := hb
  exact lineBlock_spans_length_odd line

/-! ## The `ai-response` listener -/

/-- The state the listener leaves when it appends a bot message with text `t`. -/
theorem onAiResponse_of_text (st : AppState) (clk : Clock) (p v : JSValue) (t : String)
    (hv : (if typeOf p = "object" then getResponse p else .ok p) = .ok v)
    (ht : jsString v = .ok t) :
    onAiResponse st p clk =
      .ok { st with
            conversations := st.conversations ++ [⟨clk.now, t, "bot", clk.timeText⟩],
            isTyping := false } := by
  unfold onAiResponse
  rw [hv]
  simp only [ht]

/-- A listener that returns has cleared the typing flag and added one bot message. -/
theorem onAiResponse_ok (st st' : AppState) (clk : Clock) (p : JSValue)
    (h : onAiResponse st p clk = .ok st') :
    st'.isTyping = false ∧
      ∃ t, st'.conversations = st.conversations ++ [⟨clk.now, t, "bot", clk.timeText⟩] := by
  unfold onAiResponse at h
  split at h
  · cases h
  · split at h
    · cases h
    · rename_i text _
      cases h
      exact ⟨rfl, text, rfl⟩

/-- C1 (counterexample): an object without a `response` field has the string
representation `[object Object]`, but the listener appends the text `undefined`. -/
theorem onAiResponse_object_text_not_payload_string :
    jsString (.object [("text", .string "hi")]) = .ok "[object Object]" ∧
    onAiResponse ⟨"", [], true⟩ (.object [("text", .string "hi")]) ⟨0, "10:00 AM"⟩ =
      .ok ⟨"", [⟨0, "undefined", "bot", "10:00 AM"⟩], false⟩ ∧
    ¬ AppendsOne []
        (afterAiResponse ⟨"", [], true⟩ (.object [("text", .string "hi")])
          ⟨0, "10:00 AM"⟩).conversations
        "bot" "[object Object]" := by
  refine ⟨rfl, rfl, ?_⟩
  rintro ⟨m, hm, _, ht⟩
  have h1 : (afterAiResponse ⟨"", [], true⟩ (.object [("text", .string "hi")])
      ⟨0, "10:00 AM"⟩).conversations = [⟨0, "undefined", "bot", "10:00 AM"⟩] := rfl
  rw [h1, List.nil_append, List.cons.injEq] at hm
  rw [← hm.1] at ht
  revert ht
  decide

/-- C1 (amended): for a payload `p` that is `undefined`, a boolean or a number the
listener does not raise and appends exactly one bot message whose text is the string
representation of `p`; for a payload `q` that is an array or an object without a
`response` field it does not raise and appends exactly one bot message whose text is
`undefined`. -/
theorem onAiResponse_other_shapes (st : AppState) (clk : Clock) (p q : JSValue)
    (hp : isOtherPrimitive p = true) (hq : lacksResponse q = true) :
    (∃ t, jsString p = .ok t ∧
      onAiResponse st p clk =
        .ok { st with
              conversations := st.conversations ++ [⟨clk.now, t, "bot", clk.timeText⟩],
              isTyping := false }) ∧
    onAiResponse st q clk =
      .ok { st with
            conversations :=
              st.conversations ++ [⟨clk.now, "undefined", "bot", clk.timeText⟩],
            isTyping := false } := by
  constructor
  · cases p with
    | undefined => exact ⟨"undefined", rfl, rfl⟩
    | boolean b => exact ⟨if b then "true" else "false", rfl, rfl⟩
    | number repr => exact ⟨repr, rfl, rfl⟩
    | null => simp [isOtherPrimitive] at hp
    | string s => simp [isOtherPrimitive] at hp
    | array items => simp [isOtherPrimitive] at hp
    | object fields => simp [isOtherPrimitive] at hp
  · cases q with
    | array items => exact onAiResponse_of_text st clk _ .undefined "undefined" rfl rfl
    | object fields =>
      have hno : lookupField "response" fields = none := by
        simp only [lacksResponse, Bool.not_eq_true'] at hq
        clear st clk p hp
        induction fields with
        | nil => rfl
        | cons kv rest ih =>
          obtain ⟨k, v⟩ := kv
          simp only [hasField, Bool.or_eq_false_iff, decide_eq_false_iff_not] at hq
          simp only [lookupField, hq.1, if_false]
          exact ih hq.2
      refine onAiResponse_of_text st clk _ .undefined "undefined" ?_ rfl
      simp only [typeOf, if_true, getResponse, hno]
    | undefined => simp [lacksResponse] at hq
    | null => simp [lacksResponse] at hq
    | boolean b => simp [lacksResponse] at hq
    | number repr => simp [lacksResponse] at hq
    | string s => simp [lacksResponse] at hq

theorem onAiResponse_other_shapes_witness :
    isOtherPrimitive (.number "42") = true ∧
    lacksResponse (.array [.number "1", .number "2"]) = true ∧
    ((∃ t, jsString (.number "42") = .ok t ∧
      onAiResponse ⟨"", [], true⟩ (.number "42") ⟨0, "10:00 AM"⟩ =
        .ok { (⟨"", [], true⟩ : AppState) with
              conversations := [] ++ [⟨0, t, "bot", "10:00 AM"⟩],
              isTyping := false }) ∧
    onAiResponse ⟨"", [], true⟩ (.array [.number "1", .number "2"]) ⟨0, "10:00 AM"⟩ =
      .ok { (⟨"", [], true⟩ : AppState) with
            conversations := [] ++ [⟨0, "undefined", "bot", "10:00 AM"⟩],
            isTyping := false }) :=
  ⟨rfl, rfl,
    onAiResponse_other_shapes ⟨"", [], true⟩ ⟨0, "10:00 AM"⟩ (.number "42")
      (.array [.number "1", .number "2"]) rfl rfl⟩

/-- C7: for a payload that is the plain string `t`, or an object whose `response`
field is the string `t`, the listener returns, the log is exactly one entry longer,
and the new last entry has sender `bot` and text `t`. -/
theorem onAiResponse_appends_bot_message (st : AppState) (clk : Clock) (p : JSValue)
    (t : String)
    (h : p = .string t ∨
      ∃ fields, p = .object fields ∧ lookupField "response" fields = some (.string t)) :
    ∃ st' m, onAiResponse st p clk = .ok st' ∧
      st'.conversations = st.conversations ++ [m] ∧
      st'.conversations.length = st.conversations.length + 1 ∧
      m.sender = "bot" ∧ m.text = t := by
  have key : onAiResponse st p clk =
      .ok { st with
            conversations := st.conversations ++ [⟨clk.now, t, "bot", clk.timeText⟩],
            isTyping := false } := by
    rcases h with rfl | ⟨fields, rfl, hf⟩
    · exact onAiResponse_of_text st clk _ (.string t) t rfl rfl
    · refine onAiResponse_of_text st clk _ (.string t) t ?_ rfl
      simp only [typeOf, if_true, getResponse, hf]
  exact ⟨_, ⟨clk.now, t, "bot", clk.timeText⟩, key, rfl, by simp, rfl, rfl⟩

theorem onAiResponse_appends_bot_message_witness :
    ∃ st' m,
      onAiResponse ⟨"", [⟨0, "Hello", "user", "10:00 AM"⟩], true⟩
        (.object [("response", .string "Hi **there**")]) ⟨1, "10:01 AM"⟩ = .ok st' ∧
      st'.conversations = [⟨0, "Hello", "user", "10:00 AM"⟩] ++ [m] ∧
      st'.conversations.length = [(⟨0, "Hello", "user", "10:00 AM"⟩ : Message)].length + 1 ∧
      m.sender = "bot" ∧ m.text = "Hi **there**" :=
  onAiResponse_appends_bot_message ⟨"", [⟨0, "Hello", "user", "10:00 AM"⟩], true⟩
    ⟨1, "10:01 AM"⟩ (.object [("response", .string "Hi **there**")]) "Hi **there**"
    (Or.inr ⟨[("response", .string "Hi **there**")], rfl, rfl⟩)

/-- C8 (code at the failing input): with the typing flag set, a `null` payload makes
the listener throw at `response.response`, before `setIsTyping(false)`, so the flag
is still set after the listener has run. -/
theorem onAiResponse_null_leaves_typing :
    onAiResponse ⟨"", [⟨0, "Hello", "user", "10:00 AM"⟩], true⟩ .null ⟨1, "10:01 AM"⟩ =
      .error (.typeError "Cannot read properties of null (reading 'response')") ∧
    (afterAiResponse ⟨"", [⟨0, "Hello", "user", "10:00 AM"⟩], true⟩ .null
      ⟨1, "10:01 AM"⟩).isTyping = true := by
  exact ⟨rfl, rfl⟩

/-! ## `handleSubmit` -/

/-- With the socket in place, a text that is not blank is accepted: the user message
is appended, the event is emitted, the input box is cleared, the flag is set. -/
theorem handleSubmit_accept (sock : Socket) (log : List Message) (typing : Bool)
    (text : String) (clk : Clock) (h : trim text ≠ "") :
    handleSubmit (some sock) ⟨text, log, typing⟩ clk =
      .ok { state := ⟨"", log ++ [⟨clk.now, text, "user", clk.timeText⟩], true⟩,
            emitted := [⟨"ai-message", text⟩] } := by
  simp only [handleSubmit, h, if_false]

/-- A blank text is rejected before the socket is touched. -/
theorem handleSubmit_reject (socket : Option Socket) (st : AppState) (clk : Clock)
    (h : trim st.message = "") :
    handleSubmit socket st clk = .ok { state := st, emitted := [] } := by
  simp only [handleSubmit, h, if_true]

/-- C4 (counterexample): submitting `Hello` emits one event, named `ai-message`; no
emitted event is named `user-message`. -/
theorem handleSubmit_event_name_not_user_message :
    ∃ out, handleSubmit (some socketInstance) ⟨"Hello", [], false⟩ ⟨0, "10:00 AM"⟩ = .ok out ∧
      out.emitted = [⟨"ai-message", "Hello"⟩] ∧
      ∀ e ∈ out.emitted, e.event ≠ "user-message" := by
  refine ⟨_, rfl, rfl, ?_⟩
  decide

/-- C4 (amended): for every conversation state and every text that is not empty after
trimming, `handleSubmit` (with the socket in place) emits exactly one outbound event;
its name is `ai-message` and its payload is the literal typed text. -/
theorem handleSubmit_emits_ai_message (sock : Socket) (log : List Message)
    (typing : Bool) (text : String) (clk : Clock) (h : trim text ≠ "") :
    ∃ out, handleSubmit (some sock) ⟨text, log, typing⟩ clk = .ok out ∧
      out.emitted = [⟨"ai-message", text⟩] := by
  rw [handleSubmit_accept sock log typing text clk h]
  exact ⟨_, rfl, rfl⟩

theorem handleSubmit_emits_ai_message_witness :
    trim "  Hello " ≠ "" ∧
    ∃ out, handleSubmit (some socketInstance) ⟨"  Hello ", [], false⟩ ⟨0, "10:00 AM"⟩ =
        .ok out ∧
      out.emitted = [⟨"ai-message", "  Hello "⟩] :=
  ⟨by decide,
    handleSubmit_emits_ai_message socketInstance [] false "  Hello " ⟨0, "10:00 AM"⟩
      (by decide)⟩

/-- C5: for every log and every text that is not empty after trimming, `handleSubmit`
(with the socket in place) returns, the log is exactly one entry longer, and the new
last entry has sender `user` and the literal input text. -/
theorem handleSubmit_appends_user_message (sock : Socket) (log : List Message)
    (typing : Bool) (text : String) (clk : Clock) (h : trim text ≠ "") :
    ∃ out m, handleSubmit (some sock) ⟨text, log, typing⟩ clk = .ok out ∧
      out.state.conversations = log ++ [m] ∧
      out.state.conversations.length = log.length + 1 ∧
      m.sender = "user" ∧ m.text = text := by
  rw [handleSubmit_accept sock log typing text clk h]
  exact ⟨_, ⟨clk.now, text, "user", clk.timeText⟩, rfl, rfl, by simp, rfl, rfl⟩

theorem handleSubmit_appends_user_message_witness :
    trim " Hello" ≠ "" ∧
    ∃ out m,
      handleSubmit (some socketInstance)
        ⟨" Hello", [⟨0, "Hi", "bot", "9:59 AM"⟩], false⟩ ⟨1, "10:00 AM"⟩ = .ok out ∧
      out.state.conversations = [⟨0, "Hi", "bot", "9:59 AM"⟩] ++ [m] ∧
      out.state.conversations.length = [(⟨0, "Hi", "bot", "9:59 AM"⟩ : Message)].length + 1 ∧
      m.sender = "user" ∧ m.text = " Hello" :=
  ⟨by decide,
    handleSubmit_appends_user_message socketInstance [⟨0, "Hi", "bot", "9:59 AM"⟩] false
      " Hello" ⟨1, "10:00 AM"⟩ (by decide)⟩

/-- C6: for every state, with or without a socket, a text that is empty or
whitespace-only makes `handleSubmit` a silent no-op: it returns without raising, the
state (log, typing flag, input box) is unchanged and no event is emitted. -/
theorem handleSubmit_blank_is_noop (socket : Option Socket) (log : List Message)
    (typing : Bool) (text : String) (clk : Clock) (h : trim text = "") :
    ∃ out, handleSubmit socket ⟨text, log, typing⟩ clk = .ok out ∧
      out.state.conversations = log ∧ out.state.isTyping = typing ∧
      out.state = ⟨text, log, typing⟩ ∧ out.emitted = [] := by
  rw [handleSubmit_reject socket ⟨text, log, typing⟩ clk h]
  exact ⟨_, rfl, rfl, rfl, rfl, rfl⟩

theorem handleSubmit_blank_is_noop_witness :
    trim " \t  " = "" ∧
    ∃ out,
      handleSubmit none ⟨" \t  ", [⟨0, "Hi", "bot", "9:59 AM"⟩], true⟩ ⟨1, "10:00 AM"⟩ =
        .ok out ∧
      out.state.conversations = [⟨0, "Hi", "bot", "9:59 AM"⟩] ∧ out.state.isTyping = true ∧
      out.state = ⟨" \t  ", [⟨0, "Hi", "bot", "9:59 AM"⟩], true⟩ ∧ out.emitted = [] :=
  ⟨by decide,
    handleSubmit_blank_is_noop none [⟨0, "Hi", "bot", "9:59 AM"⟩] true " \t  "
      ⟨1, "10:00 AM"⟩ (by decide)⟩

/-! ## Sequences of events -/

/-- No step changes, removes or reorders a message already in the log. -/
theorem step_keeps_log (sock : Socket) (st : AppState) (ev : Event) :
    st.conversations <+: (step sock st ev).conversations := by
  cases ev with
  | submit text clk =>
    simp only [step]
    by_cases h : trim text = ""
    · rw [handleSubmit_reject (some sock) { st with message := text } clk h]
    · rw [handleSubmit_accept sock st.conversations st.isTyping text clk h]
      exact List.prefix_append _ _
  | aiResponse payload clk =>
    simp only [step, afterAiResponse]
    cases heq : onAiResponse st payload clk with
    | error e => exact List.prefix_refl _
    | ok st' =>
      obtain ⟨_, t, ht⟩ := onAiResponse_ok st st' clk payload heq
      simp only [ht]
      exact List.prefix_append _ _

/-- The log at the start of a run is a prefix of the log at its end. -/
theorem run_keeps_log (sock : Socket) (st : AppState) (events : List Event) :
    st.conversations <+: (run sock st events).conversations := by
  induction events generalizing st with
  | nil => exact List.prefix_refl _
  | cons ev rest ih =>
    exact List.IsPrefix.trans (step_keeps_log sock st ev) (ih (step sock st ev))

/-- On a protocol payload the listener returns and adds one message. -/
theorem afterAiResponse_length_of_protocol_payload (st : AppState) (clk : Clock)
    (p : JSValue) (h : isProtocolPayload p = true) :
    (afterAiResponse st p clk).conversations.length = st.conversations.length + 1 := by
  have key : ∃ t, onAiResponse st p clk =
      .ok { st with
            conversations := st.conversations ++ [⟨clk.now, t, "bot", clk.timeText⟩],
            isTyping := false } := by
    cases p with
    | string t => exact ⟨t, onAiResponse_of_text st clk _ (.string t) t rfl rfl⟩
    | object fields =>
      simp only [isProtocolPayload] at h
      split at h
      · rename_i t hf
        refine ⟨t, onAiResponse_of_text st clk _ (.string t) t ?_ rfl⟩
        simp only [typeOf, if_true, getResponse, hf]
      · simp at h
    | undefined => simp [isProtocolPayload] at h
    | null => simp [isProtocolPayload] at h
    | boolean b => simp [isProtocolPayload] at h
    | number repr => simp [isProtocolPayload] at h
    | array items => simp [isProtocolPayload] at h
  obtain ⟨t, ht⟩ := key
  simp [afterAiResponse, ht]

/-- When every delivery carries a protocol payload, a run adds exactly one message per
accepted submit and per delivery. -/
theorem run_length_of_protocol_payloads (sock : Socket) (st : AppState)
    (events : List Event) (h : deliversProtocolPayloads events = true) :
    (run sock st events).conversations.length =
      st.conversations.length + expectedCount events := by
  induction events generalizing st with
  | nil => rfl
  | cons ev rest ih =>
    cases ev with
    | submit text clk =>
      have hrest : deliversProtocolPayloads rest = true := h
      have hrun := ih (step sock st (.submit text clk)) hrest
      simp only [run, List.foldl_cons] at hrun ⊢
      rw [hrun]
      simp only [step, expectedCount]
      by_cases hb : trim text = ""
      · rw [handleSubmit_reject (some sock) { st with message := text } clk hb]
        simp [hb]
      · rw [handleSubmit_accept sock st.conversations st.isTyping text clk hb]
        simp [hb]
        omega
    | aiResponse payload clk =>
      simp only [deliversProtocolPayloads, Bool.and_eq_true] at h
      have hrun := ih (step sock st (.aiResponse payload clk)) h.2
      simp only [run, List.foldl_cons] at hrun ⊢
      rw [hrun]
      simp only [step, expectedCount]
      rw [afterAiResponse_length_of_protocol_payload st clk payload h.1]
      omega

/-- C10 (code at the failing input): after an accepted submit and the delivery of a
`null` payload the specification expects two messages, but the listener threw and the
log holds only the user message. -/
theorem run_null_delivery_adds_no_message :
    expectedCount [.submit "Hello" ⟨0, "10:00 AM"⟩, .aiResponse .null ⟨1, "10:01 AM"⟩] = 2 ∧
    (run socketInstance ⟨"", [], false⟩
      [.submit "Hello" ⟨0, "10:00 AM"⟩, .aiResponse .null ⟨1, "10:01 AM"⟩]).conversations =
      [⟨0, "Hello", "user", "10:00 AM"⟩] := by
  exact ⟨by decide, rfl⟩

end MiniChatbot
